import Mathlib

set_option linter.unusedVariables false
set_option maxRecDepth 20000

/-! Shallow embedding of the cache-dns library (src/index.ts): a caching and
coalescing layer over DNS lookups.  JavaScript runtime values that matter to
the control flow are modelled explicitly; the process-wide mutable state
(address cache, pending-lookup map, supported-family cache, defaults) is
threaded through an explicit `World` record.  The external resolution
primitive (`dns.promises.resolve4` / `resolve6`) and the network-interface
enumeration (`os.networkInterfaces`) are oracles stored in the `World`. -/

namespace CacheDns

/-- A JavaScript value as it can flow through the `family` option and the
`cachedSupportedFamilies` variable: `undefined`, a number, or the two-element
array `[v, v]` produced by `Set.prototype.entries().next().value` in
`getSupportedFamilies` (src/index.ts:418). -/
inductive JsVal where
  | undef : JsVal
  | num : Nat → JsVal
  | pair : Nat → Nat → JsVal
deriving DecidableEq, Repr

/-- JavaScript truthiness restricted to the values a `family` option can hold:
`undefined` and `0` are falsy; every other number and every array is truthy. -/
def jsFalsy : JsVal → Bool
  | .undef => true
  | .num n => n == 0
  | .pair _ _ => false

/-- Truthiness of the `hints` option (`number | undefined`). -/
def hintsTruthy : Option Nat → Bool
  | none => false
  | some n => n != 0

/-- glibc getaddrinfo flag AI_ADDRCONFIG, the value of `dns.ADDRCONFIG`. -/
def dnsADDRCONFIG : Nat := 32
/-- glibc getaddrinfo flag AI_V4MAPPED, the value of `dns.V4MAPPED`. -/
def dnsV4MAPPED : Nat := 8
/-- glibc getaddrinfo flag AI_ALL, the value of `dns.ALL`. -/
def dnsALL : Nat := 16

/-- The record shape returned by `dns.promises.resolve4/6` with `ttl: true`
(the `dns.RecordWithTtl` interface): address string and ttl in seconds. -/
structure RecordWithTtl where
  address : String
  ttl : Nat
deriving DecidableEq, Repr

/-- The `DnsRecord` interface from src/index.ts: a `RecordWithTtl` tagged with
the family it was resolved for. -/
structure DnsRecord where
  address : String
  ttl : Nat
  family : Nat
deriving DecidableEq, Repr

/-- The `dns.LookupAddress` shape `{address, family}` returned to callers. -/
structure LookupAddress where
  address : String
  family : Nat
deriving DecidableEq, Repr

/-- A JavaScript `Error` as used in src/index.ts, with the ErrnoException
fields (`code`, `errno`, `syscall`, `hostname`).  `errno` is modelled as an
optional string because `resolve` passes the upstream error's string `code`
into the `errno` slot (src/index.ts:280).  A plain `new Error(message)` has
all optional fields absent. -/
structure JsError where
  message : String
  code : Option String
  errno : Option String
  syscall : Option String
  hostname : Option String
deriving DecidableEq, Repr

instance {ε α : Type} [DecidableEq ε] [DecidableEq α] : DecidableEq (Except ε α) := fun a b =>
  match a, b with
  | .ok x, .ok y =>
    if h : x = y then .isTrue (by rw [h]) else .isFalse (by simp [h])
  | .error x, .error y =>
    if h : x = y then .isTrue (by rw [h]) else .isFalse (by simp [h])
  | .ok _, .error _ => .isFalse (by simp)
  | .error _, .ok _ => .isFalse (by simp)

/-- String interpolation of an optional string, as JavaScript template
literals render `undefined`. -/
def optStr : Option String → String
  | none => "undefined"
  | some s => s

/-- JavaScript truthiness of an optional string (`undefined` and `""` falsy). -/
def strTruthy : Option String → Bool
  | none => false
  | some s => s != ""

/-- `makeNotFoundError` from src/index.ts:61-77: builds the uniform
`ENOTFOUND` error, carrying the given `code` as the new error's `errno` and
passing the `syscall` label through. -/
def makeNotFoundError (code : Option String) (syscall : Option String)
    (hostname : Option String) : JsError :=
  { message := optStr syscall ++ " " ++ optStr code ++
      (if strTruthy hostname then " " ++ hostname.getD "" else "")
    code := some "ENOTFOUND"
    errno := code
    syscall := syscall
    hostname := if strTruthy hostname then hostname else none }

/-- An entry of the `AddressCache` (src/index.ts:18-21).  The round-robin
cursor `_rr` lives on the records array object in the source
(src/index.ts:347); here it is carried alongside the list it belongs to. -/
structure AddressCacheEntry where
  records : List DnsRecord
  rr : Option Int
  expiry : Nat
deriving DecidableEq, Repr

/-- The backing store of `AddressCache` (a JavaScript `Map`), as an
association list with at most one live binding per key. -/
def AddressCache : Type := List (String × AddressCacheEntry)

instance : DecidableEq AddressCache := by
  unfold AddressCache
  infer_instance

/-- Lookup in an association list (JavaScript `Map.get`). -/
def assocFind {β : Type} (key : String) : List (String × β) → Option β
  | [] => none
  | (k, v) :: rest => if k = key then some v else assocFind key rest

/-- Overwrite-or-insert in an association list (JavaScript `Map.set`). -/
def assocSet {β : Type} (key : String) (v : β) : List (String × β) → List (String × β)
  | [] => [(key, v)]
  | (k, w) :: rest => if k = key then (k, v) :: rest else (k, w) :: assocSet key v rest

/-- Removal from an association list (JavaScript `Map.delete`). -/
def assocErase {β : Type} (key : String) (l : List (String × β)) : List (String × β) :=
  l.filter (fun p => p.1 ≠ key)

/-- JavaScript `Math.min` over a spread non-empty list of numbers (0 is junk
for the empty list, which `AddressCache.set` never passes). -/
def jsMathMin : List Nat → Nat
  | [] => 0
  | x :: xs => xs.foldl min x

/-- The minimum ttl over a non-empty record list (0 junk value for []). -/
def minTtl : List DnsRecord → Nat
  | [] => 0
  | r :: rs => rs.foldl (fun m x => min m x.ttl) r.ttl

/-- `AddressCache.get` (src/index.ts:26-38): absent on a missing key; a stored
entry that is empty or whose expiry has passed is deleted and reported absent;
otherwise the stored records are returned.  The possibly-updated map is
returned alongside. -/
def AddressCache.get (cache : AddressCache) (now : Nat) (key : String) :
    Option (List DnsRecord) × AddressCache :=
  match assocFind key cache with
  | none => (none, cache)
  | some entry =>
    if entry.records.length = 0 ∨ entry.expiry ≤ now then
      (none, assocErase key cache)
    else
      (some entry.records, cache)

/-- `AddressCache.set` (src/index.ts:40-51): no-op on an empty record list;
otherwise stores the records under `key` with expiry
`Math.min(...records.map(r => Date.now() + r.ttl * 1000))`, overwriting any
existing entry.  The fresh records array carries no `_rr` cursor. -/
def AddressCache.set (cache : AddressCache) (now : Nat) (key : String)
    (records : List DnsRecord) : AddressCache :=
  if records.length = 0 then cache
  else
    assocSet key
      { records := records
        rr := none
        expiry := jsMathMin (records.map (fun record => now + record.ttl * 1000)) }
      cache

/-- `roundRobin` (src/index.ts:343-363) as a pure step on a list together with
its `_rr` cursor: returns the selected element and the new cursor. -/
def roundRobin {α : Type} (arr : List α) (rr : Option Int) : Option α × Option Int :=
  if arr.length = 0 then (none, rr)
  else
    match rr with
    | none => (arr[0]?, some 0)
    | some r =>
      if arr.length = 1 then (arr[0]?, some r)
      else if (arr.length : Int) - 1 ≤ r ∨ r < 0 then (arr[0]?, some 0)
      else (arr[(r + 1).toNat]?, some (r + 1))

/-- Cursor after `k` roundRobin selections against one list object, starting
from a fresh array (no `_rr` property). -/
def rrStateN {α : Type} (arr : List α) : Nat → Option Int
  | 0 => none
  | k + 1 => (roundRobin arr (rrStateN arr k)).2

/-- Element produced by the `k`-th (0-based) roundRobin selection against one
list object, starting from a fresh array. -/
def rrNth {α : Type} (arr : List α) (k : Nat) : Option α :=
  (roundRobin arr (rrStateN arr k)).1

/-- The handler attached to the external `resolveFunc` promise
(src/index.ts:259-266): an empty successful resolution becomes the
synthesized not-found error (`getaddrinfo`, no errno); otherwise every raw
record is tagged with the requested family. -/
def classifyExternal (family : Nat) (hostname : String)
    (res : Except JsError (List RecordWithTtl)) : Except JsError (List DnsRecord) :=
  match res with
  | .error e => .error e
  | .ok records =>
    if records.length = 0 then
      .error (makeNotFoundError none (some "getaddrinfo") (some hostname))
    else
      .ok (records.map (fun record =>
        { address := record.address, ttl := record.ttl, family := family }))

/-- The `catch` block of `resolve` (src/index.ts:278-283): a "no data" or
"no such name" upstream error is rewritten into the not-found shape keeping
the original code as errno and the original syscall; anything else is
rethrown unchanged. -/
def catchTranslate (hostname : String) (e : JsError) : JsError :=
  if e.code = some "ENODATA" ∨ e.code = some "ENONAME" then
    makeNotFoundError e.code e.syscall (some hostname)
  else e

/-- The cache key `hostname + "_" + family` (src/index.ts:250). -/
def mkKey (hostname : String) (family : Nat) : String :=
  hostname ++ "_" ++ toString family

/-- The process-wide defaults `cacheDnsDefaults` (src/index.ts:54-57). -/
structure CacheDnsDefaults where
  defaultFamily : JsVal
  defaultHints : Option Nat
deriving DecidableEq, Repr

/-- The `family` field of one `os.networkInterfaces()` entry: the string
`'IPv4'`/`'IPv6'` on Node <= 17 or the number 4/6 from Node 18 on
(src/index.ts:403-405). -/
inductive NetFamily where
  | str : String → NetFamily
  | num : Nat → NetFamily
deriving DecidableEq, Repr

/-- One address of a network interface, keeping only the fields
`getSupportedFamilies` reads. -/
structure NetIfaceAddr where
  internal : Bool
  family : NetFamily
deriving DecidableEq, Repr

/-- The process-wide mutable state of the library plus its external oracles:
`addressCache` and `cacheDnsDefaults` and `cachedSupportedFamilies` are the
module-level variables of src/index.ts; `external` stands for
`dns.promises.resolve4/6` (selected by the family argument), `interfaces` for
the flattened `os.networkInterfaces()`, `now` for `Date.now()`, and `extLog`
records every invocation of the external resolution primitive. -/
structure World where
  addressCache : AddressCache
  cacheDnsDefaults : CacheDnsDefaults
  cachedSupportedFamilies : Option JsVal
  interfaces : List NetIfaceAddr
  external : String → Nat → Except JsError (List RecordWithTtl)
  extLog : List (String × Nat)
  now : Nat

/-- The tail of `resolve` (src/index.ts:286-302): with `all` set, every record
is returned as an address+family pair; otherwise `roundRobin` picks one
record.  Because the cursor lives on the records array, which is the very
array stored in the cache (a hit returns it; a miss stores it via
`addressCache.set` before this point), the cursor update is written back to
the cache entry under `key`.  The fallback branch (records not present in the
cache) is unreachable in the sequential flows but kept for totality. -/
def selectRecords (w : World) (key : String) (records : List DnsRecord)
    (all : Bool) : Except JsError (List LookupAddress) × World :=
  if all then
    (.ok (records.map (fun record => { address := record.address, family := record.family })), w)
  else
    match assocFind key w.addressCache with
    | some entry =>
      let step := roundRobin entry.records entry.rr
      let w' := { w with addressCache := assocSet key { entry with rr := step.2 } w.addressCache }
      match step.1 with
      | none => (.ok [], w')
      | some record => (.ok [{ address := record.address, family := record.family }], w')
    | none =>
      match (roundRobin records none).1 with
      | none => (.ok [], w)
      | some record => (.ok [{ address := record.address, family := record.family }], w)

/-- `resolve` (src/index.ts:246-303) in its sequential reading: one caller, so
the pending-lookup map starts and ends empty and the await interleaves with
nothing.  On a cache miss the external primitive is invoked (logged in
`extLog`), the settled value is classified (`classifyExternal`), a success is
written to the cache, a failure passes through the catch translation. -/
def resolve (w : World) (hostname : String) (family : Nat) (all : Bool) :
    Except JsError (List LookupAddress) × World :=
  let key := mkKey hostname family
  match AddressCache.get w.addressCache w.now key with
  | (some records, cache1) =>
    selectRecords { w with addressCache := cache1 } key records all
  | (none, cache1) =>
    let w1 := { w with addressCache := cache1, extLog := w.extLog ++ [(hostname, family)] }
    match classifyExternal family hostname (w.external hostname family) with
    | .error e => (.error (catchTranslate hostname e), w1)
    | .ok records =>
      let w2 := { w1 with addressCache := AddressCache.set w1.addressCache w.now key records }
      selectRecords w2 key records all

/-- `wrapNotFound` inside `resolveBoth` (src/index.ts:309-320): a rejected
branch whose code is `ENOTFOUND` is replaced by an empty list; every other
rejection propagates. -/
def wrapNotFound (r : Except JsError (List LookupAddress)) :
    Except JsError (List LookupAddress) :=
  match r with
  | .ok l => .ok l
  | .error e => if e.code = some "ENOTFOUND" then .ok [] else .error e

/-- `resolveBoth` (src/index.ts:305-341).  The two `resolve` calls touch
disjoint cache keys and pending keys, so the interleaved execution is
equivalent to running the IPv4 branch then the IPv6 branch; `Promise.all`
reports the IPv4 rejection first when both branches reject. -/
def resolveBoth (w : World) (hostname : String) (all : Bool) :
    Except JsError (List LookupAddress) × World :=
  let p4 := resolve w hostname 4 all
  let p6 := resolve p4.2 hostname 6 all
  match wrapNotFound p4.1, wrapNotFound p6.1 with
  | .error e, _ => (.error e, p6.2)
  | .ok _, .error e => (.error e, p6.2)
  | .ok v4records, .ok v6records =>
    let result := if all then v4records ++ v6records
      else if 0 < v4records.length then v4records
      else v6records
    if result.length = 0 then
      (.error (makeNotFoundError none (some "getaddrinfo") (some hostname)), p6.2)
    else
      (.ok result, p6.2)

/-- The string produced by
`ipaddr.parse(address).toIPv4MappedAddress().toString()` (src/index.ts:380-382)
for the dotted-quad addresses the resolver returns.  Modelled from the spec:
the external ipaddr.js library renders an IPv4-mapped address in the
canonical `::ffff:a.b.c.d` form. -/
def ipv4MappedForm (address : String) : String := "::ffff:" ++ address

/-- `mapAddresses` (src/index.ts:365-387): IPv6 entries pass through; an IPv4
entry contributes its mapped form, preceded by the original entry when the
`dns.ALL` hint bit is set. -/
def mapAddresses (results : List LookupAddress) (hints : Option Nat) :
    List LookupAddress :=
  let pushBothv4Andv4Mapped := hintsTruthy hints && (hints.getD 0 &&& dnsALL != 0)
  results.foldl (fun newResults result =>
    if result.family = 6 then newResults ++ [result]
    else
      (if pushBothv4Andv4Mapped then newResults ++ [result] else newResults)
        ++ [{ address := ipv4MappedForm result.address, family := 6 }]) []

/-- The family set collected by `getSupportedFamilies` (src/index.ts:392-413)
over the non-internal interface addresses, as a pair of flags
(contains IPv4, contains IPv6). -/
def supportedSet (interfaces : List NetIfaceAddr) : Bool × Bool :=
  interfaces.foldl (fun acc net =>
    if net.internal then acc
    else
      match net.family with
      | .str s => if s = "IPv4" then (true, acc.2) else if s = "IPv6" then (acc.1, true) else acc
      | .num n => if n = 4 then (true, acc.2) else if n = 6 then (acc.1, true) else acc)
    (false, false)

/-- `getSupportedFamilies` (src/index.ts:390-425).  When the collected set has
size 0 or 2 the sentinel `undefined` is cached and returned; when it has
exactly one element the code reads `supported.entries().next().value`, which
for a JavaScript `Set` is the two-element array `[value, value]` — that array
is what gets cached and returned. -/
def getSupportedFamilies (w : World) : JsVal × World :=
  match w.cachedSupportedFamilies with
  | some v => (v, w)
  | none =>
    match supportedSet w.interfaces with
    | (false, false) => (.undef, { w with cachedSupportedFamilies := some .undef })
    | (true, true) => (.undef, { w with cachedSupportedFamilies := some .undef })
    | (true, false) => (.pair 4 4, { w with cachedSupportedFamilies := some (.pair 4 4) })
    | (false, true) => (.pair 6 6, { w with cachedSupportedFamilies := some (.pair 6 6) })

/-- The options record of `lookupPromise` after the argument-shape dispatch:
`family` (JavaScript value), `hints`, `all`. -/
structure LookupOptions where
  family : JsVal := .undef
  hints : Option Nat := none
  all : Bool := false
deriving DecidableEq, Repr

/-- The value a `lookupPromise` promise resolves with: a single
`{address, family}` pair (address is `null` in the empty-hostname branch), an
array of pairs when `all` is set, or JavaScript `undefined` when
`results[0]` indexes an empty array. -/
inductive LookupResult where
  | addr : Option String → Nat → LookupResult
  | list : List LookupAddress → LookupResult
  | undefd : LookupResult
deriving DecidableEq, Repr

/-- The ADDRCONFIG block of `lookupPromise` (src/index.ts:208-218): when the
hint is set and a supported-families value other than `undefined` comes back,
a falsy family adopts that value and a set family that differs from it is
rejected with the not-found error. -/
def addrconfigStep (w : World) (hostname : String) (family0 : JsVal)
    (hints0 : Option Nat) : Except JsError JsVal × World :=
  if hintsTruthy hints0 && (hints0.getD 0 &&& dnsADDRCONFIG != 0) then
    let p := getSupportedFamilies w
    match p.1 with
    | .undef => (.ok family0, p.2)
    | sf =>
      if jsFalsy family0 then (.ok sf, p.2)
      else if family0 ≠ sf then
        (.error (makeNotFoundError none (some "getaddrinfo") (some hostname)), p.2)
      else (.ok family0, p.2)
  else (.ok family0, w)

/-- `resultHandler` (src/index.ts:219-220): the whole array when `all` is
requested, otherwise `results[0]` (JavaScript `undefined` on an empty
array). -/
def resultHandler (all : Bool) (results : List LookupAddress) : LookupResult :=
  if all then .list results
  else
    match results with
    | r :: _ => .addr (some r.address) r.family
    | [] => .undefd

/-- `lookupPromise` (src/index.ts:174-242) for an already-normalized options
record: defaults are applied to falsy `family`/`hints`, the empty hostname
short-circuits, the ADDRCONFIG block may adopt or reject the family, the
V4MAPPED path resolves both families and maps the results, and otherwise the
switch dispatches on the family value. -/
def lookupPromise (w : World) (hostname : String) (opts : LookupOptions) :
    Except JsError LookupResult × World :=
  let family0 := if jsFalsy opts.family then w.cacheDnsDefaults.defaultFamily else opts.family
  let hints0 := if hintsTruthy opts.hints then opts.hints else w.cacheDnsDefaults.defaultHints
  if hostname = "" then
    let family := if family0 = .num 6 then 6 else 4
    if opts.all then (.ok (.list []), w) else (.ok (.addr none family), w)
  else
    match addrconfigStep w hostname family0 hints0 with
    | (.error e, w1) => (.error e, w1)
    | (.ok family1, w1) =>
      if family1 = .num 6 && hintsTruthy hints0 && (hints0.getD 0 &&& dnsV4MAPPED != 0) then
        let p := resolveBoth w1 hostname opts.all
        (p.1.map (fun results => resultHandler opts.all (mapAddresses results hints0)), p.2)
      else
        match family1 with
        | .num 4 =>
          let p := resolve w1 hostname 4 opts.all
          (p.1.map (resultHandler opts.all), p.2)
        | .num 6 =>
          let p := resolve w1 hostname 6 opts.all
          (p.1.map (resultHandler opts.all), p.2)
        | .undef =>
          let p := resolveBoth w1 hostname opts.all
          (p.1.map (resultHandler opts.all), p.2)
        | _ =>
          (.error { message := "invalid family number", code := none, errno := none,
                    syscall := none, hostname := none }, w1)

/-- The outcome one caller of `resolve` observes for the shared pending
promise: the settled value of the promise after the caller's `catch` block
(src/index.ts:276-283). -/
def callerOutcome (hostname : String) (promiseOutcome : Except JsError (List DnsRecord)) :
    Except JsError (List DnsRecord) :=
  match promiseOutcome with
  | .ok records => .ok records
  | .error e => .error (catchTranslate hostname e)

/-- State of the single-flight machinery of `resolve` (src/index.ts:244-284)
for one fixed cache key, under the cooperative scheduling of §5 of the spec:
each caller runs atomically from the cache check up to `await pendingPromise`,
and the external call settles in one atomic step.  `cached` is the unexpired
cache entry for the key, `pending` the waiters attached to the in-flight
promise (`pendingLookups` holds an entry for the key iff `pending` is some),
`extCalls` counts invocations of the external primitive for the key, and
`delivered` the outcomes handed to callers. -/
structure SFState where
  cached : Option (List DnsRecord)
  pending : Option (List Nat)
  extCalls : Nat
  delivered : List (Nat × Except JsError (List DnsRecord))
deriving DecidableEq, Repr

/-- The initial state for a key with no unexpired cache entry and no in-flight
resolution. -/
def sfInit : SFState :=
  { cached := none, pending := none, extCalls := 0, delivered := [] }

/-- A caller entering `resolve` (src/index.ts:251-275): a cache hit is served
at once; otherwise the caller attaches to an existing pending promise, or
invokes the external primitive and registers the promise as pending. -/
def sfArrive (c : Nat) (s : SFState) : SFState :=
  match s.cached with
  | some records => { s with delivered := (c, .ok records) :: s.delivered }
  | none =>
    match s.pending with
    | some waiters => { s with pending := some (c :: waiters) }
    | none => { s with pending := some [c], extCalls := s.extCalls + 1 }

/-- The external call settling (src/index.ts:259-274): the settled value is
classified, a success (necessarily non-empty) is written to the cache, the
pending entry is removed whatever the outcome, and every waiter resumes with
the same outcome through its own catch block. -/
def sfSettle (family : Nat) (hostname : String)
    (res : Except JsError (List RecordWithTtl)) (s : SFState) : SFState :=
  match s.pending with
  | none => s
  | some waiters =>
    let promiseOutcome := classifyExternal family hostname res
    { cached := match promiseOutcome with
        | .ok records => some records
        | .error _ => s.cached
      pending := none
      extCalls := s.extCalls
      delivered := waiters.map (fun c => (c, callerOutcome hostname promiseOutcome))
        ++ s.delivered }

/-- A burst of callers arriving in order while the external call is in
flight. -/
def sfArriveMany (cs : List Nat) (s : SFState) : SFState :=
  cs.foldl (fun s c => sfArrive c s) s

/-! ### Concrete instances used by witnesses -/

/-- A world holding one cached, unexpired 3-record IPv4 entry for host `h`. -/
def rrWorld : World :=
  { addressCache := [("h_4",
      { records := [⟨"a", 60, 4⟩, ⟨"b", 60, 4⟩, ⟨"c", 60, 4⟩], rr := none, expiry := 1000 })]
    cacheDnsDefaults := { defaultFamily := .undef, defaultHints := none }
    cachedSupportedFamilies := none
    interfaces := []
    external := fun _ _ => .ok []
    extLog := []
    now := 0 }

/-- State after one single-result lookup against `rrWorld`. -/
def rrWorld1 : World := (resolve rrWorld "h" 4 false).2

/-- State after two single-result lookups against `rrWorld`. -/
def rrWorld2 : World := (resolve rrWorld1 "h" 4 false).2

/-- State after three single-result lookups against `rrWorld`. -/
def rrWorld3 : World := (resolve rrWorld2 "h" 4 false).2

/-- A world with an empty cache whose external resolver returns no records. -/
def missWorld : World := { rrWorld with addressCache := [] }

/-- An upstream ENODATA failure from syscall queryA. -/
def enodataErr : JsError :=
  { message := "queryA ENODATA h", code := some "ENODATA", errno := none,
    syscall := some "queryA", hostname := none }

/-- A world with an empty cache whose external resolver fails with ENODATA
from syscall queryA. -/
def errWorld : World :=
  { missWorld with external := fun _ _ => .error enodataErr }

/-- A world with an empty cache whose external resolver returns one IPv4 and
one IPv6 record. -/
def bothWorld : World :=
  { missWorld with external := fun _ family =>
      if family = 4 then .ok [⟨"1.2.3.4", 60⟩] else .ok [⟨"::1", 60⟩] }

/-- A world with an empty cache whose external resolver returns one IPv4
record and zero IPv6 records, so the IPv6 branch of a dual-stack lookup fails
with the synthesized not-found error. -/
def v4onlyWorld : World :=
  { missWorld with external := fun _ family =>
      if family = 4 then .ok [⟨"1.2.3.4", 60⟩] else .ok [] }

/-- A world with exactly one non-internal IPv4 interface address and a
not-yet-computed supported-families cache. -/
def wC2 : World :=
  { missWorld with
    interfaces := [⟨false, .str "IPv4"⟩]
    external := fun _ _ => .ok [⟨"1.2.3.4", 60⟩] }

/-- A two-record IPv4 cache entry whose cursor stands at index 0. -/
def entry4 : AddressCacheEntry :=
  { records := [⟨"1.2.3.4", 60, 4⟩, ⟨"5.6.7.8", 60, 4⟩], rr := some 0, expiry := 1000 }

/-- A two-record IPv6 cache entry whose cursor stands at index 0. -/
def entry6 : AddressCacheEntry :=
  { records := [⟨"::1", 60, 6⟩, ⟨"::2", 60, 6⟩], rr := some 0, expiry := 1000 }

/-- A world with unexpired two-record cache entries for both families of host
`h`, both cursors standing at index 0. -/
def w10 : World :=
  { missWorld with addressCache := [("h_4", entry4), ("h_6", entry6)] }

/-! ### Helper lemmas -/

theorem roundRobin_step_eq {α : Type} (arr : List α) (m : Nat) (h2 : 2 ≤ arr.length) :
    roundRobin arr (some (m : Int))
    = if m = arr.length - 1 then (arr[0]?, some 0)
      else if arr.length - 1 < m then (arr[0]?, some 0)
      else (arr[m + 1]?, some ((m : Int) + 1)) := by
  have hl0 : ¬ arr.length = 0 := by omega
  have h1 : ¬ arr.length = 1 := by omega
  by_cases hlast : m = arr.length - 1
  · have hcond : ((arr.length : Int) - 1 ≤ (m : Int) ∨ (m : Int) < 0) := by omega
    simp only [roundRobin, if_neg hl0, if_neg h1, if_pos hcond, if_pos hlast]
  · by_cases hgt : arr.length - 1 < m
    · have hcond : ((arr.length : Int) - 1 ≤ (m : Int) ∨ (m : Int) < 0) := by omega
      simp only [roundRobin, if_neg hl0, if_neg h1, if_pos hcond, if_neg hlast, if_pos hgt]
    · have hcond : ¬((arr.length : Int) - 1 ≤ (m : Int) ∨ (m : Int) < 0) := by omega
      simp only [roundRobin, if_neg hl0, if_neg h1, if_neg hcond, if_neg hlast, if_neg hgt]
      have h3 : ((m : Int) + 1).toNat = m + 1 := by omega
      rw [h3]

theorem mod_succ_eq (k n : Nat) (h2 : 2 ≤ n) :
    (k + 1) % n = if k % n = n - 1 then 0 else k % n + 1 := by
  have h1 : (k + 1) % n = (k % n + 1) % n := by
    conv_lhs => rw [Nat.add_mod]
    rw [Nat.mod_eq_of_lt (show (1:Nat) < n by omega)]
  rw [h1]
  have hm : k % n < n := Nat.mod_lt _ (by omega)
  by_cases hl : k % n = n - 1
  · rw [if_pos hl, hl, Nat.sub_add_cancel (by omega), Nat.mod_self]
  · rw [if_neg hl, Nat.mod_eq_of_lt (by omega)]

theorem rrStateN_succ {α : Type} (arr : List α) (h : arr ≠ []) (k : Nat) :
    rrStateN arr (k + 1) = some ((k % arr.length : Nat) : Int) := by
  have hl0 : arr.length ≠ 0 := by simpa using h
  induction k with
  | zero =>
    simp [rrStateN, roundRobin, hl0]
  | succ k ih =>
    show (roundRobin arr (rrStateN arr (k + 1))).2 = some (((k + 1) % arr.length : Nat) : Int)
    rw [ih]
    by_cases h1 : arr.length = 1
    · simp [roundRobin, h1, Nat.mod_one]
    · have h2 : 2 ≤ arr.length := by omega
      rw [roundRobin_step_eq arr (k % arr.length) h2, mod_succ_eq k arr.length h2]
      have hm : k % arr.length < arr.length := Nat.mod_lt _ (by omega)
      by_cases hlast : k % arr.length = arr.length - 1
      · rw [if_pos hlast, if_pos hlast]
        simp
      · rw [if_neg hlast, if_neg hlast, if_neg (by omega : ¬ arr.length - 1 < k % arr.length)]
        simp

theorem roundRobin_rotation {α : Type} (arr : List α) (k : Nat) (h : arr ≠ []) :
    rrNth arr k = arr[k % arr.length]? := by
  have hl0 : arr.length ≠ 0 := by simpa using h
  match k with
  | 0 =>
    simp [rrNth, rrStateN, roundRobin, hl0, Nat.zero_mod]
  | k + 1 =>
    rw [rrNth, rrStateN_succ arr h k]
    by_cases h1 : arr.length = 1
    · simp [roundRobin, h1, Nat.mod_one]
    · have h2 : 2 ≤ arr.length := by omega
      rw [roundRobin_step_eq arr (k % arr.length) h2, mod_succ_eq k arr.length h2]
      have hm : k % arr.length < arr.length := Nat.mod_lt _ (by omega)
      by_cases hlast : k % arr.length = arr.length - 1
      · rw [if_pos hlast, if_pos hlast]
      · rw [if_neg hlast, if_neg hlast, if_neg (by omega : ¬ arr.length - 1 < k % arr.length)]

theorem mapAddresses_foldl_eq (hints : Option Nat) (results : List LookupAddress)
    (acc : List LookupAddress) :
    results.foldl (fun newResults result =>
      if result.family = 6 then newResults ++ [result]
      else
        (if hintsTruthy hints && (hints.getD 0 &&& dnsALL != 0) then
            newResults ++ [result]
          else newResults)
          ++ [{ address := ipv4MappedForm result.address, family := 6 }]) acc
    = acc ++ results.flatMap (fun result =>
        if result.family = 6 then [result]
        else if hintsTruthy hints && (hints.getD 0 &&& dnsALL != 0) then
          [result, { address := ipv4MappedForm result.address, family := 6 }]
        else [{ address := ipv4MappedForm result.address, family := 6 }]) := by
  induction results generalizing acc with
  | nil => simp
  | cons r rs ih =>
    rw [List.foldl_cons, List.flatMap_cons, ih]
    by_cases h6 : r.family = 6
    · simp [h6]
    · by_cases hp : (hintsTruthy hints && (hints.getD 0 &&& dnsALL != 0)) = true
      · simp [h6, hp]
      · simp [h6, hp]

theorem assocFind_set_self {β : Type} (key : String) (v : β) (l : List (String × β)) :
    assocFind key (assocSet key v l) = some v := by
  induction l with
  | nil => simp [assocSet, assocFind]
  | cons p rest ih =>
    by_cases hk : p.1 = key
    · simp [assocSet, assocFind, hk]
    · simp [assocSet, assocFind, hk, ih]

theorem assocFind_set_other {β : Type} (k key : String) (v : β) (l : List (String × β))
    (h : k ≠ key) : assocFind k (assocSet key v l) = assocFind k l := by
  induction l with
  | nil => simp [assocSet, assocFind, Ne.symm h]
  | cons p rest ih =>
    by_cases hk : p.1 = key
    · simp [assocSet, assocFind, hk, Ne.symm h]
    · simp only [assocSet, if_neg hk, assocFind]
      by_cases hp : p.1 = k
      · simp [hp]
      · simp [hp, ih]

theorem assocFind_erase_self {β : Type} (key : String) (l : List (String × β)) :
    assocFind key (assocErase key l) = none := by
  induction l with
  | nil => simp [assocErase, assocFind]
  | cons p rest ih =>
    by_cases hk : p.1 = key
    · simpa [assocErase, assocFind, hk] using ih
    · simpa [assocErase, assocFind, hk] using ih

theorem foldl_min_affine (now : Nat) (rs : List DnsRecord) (a : Nat) :
    List.foldl min (now + a * 1000) (rs.map fun r => now + r.ttl * 1000)
    = now + (rs.foldl (fun m x => min m x.ttl) a) * 1000 := by
  induction rs generalizing a with
  | nil => simp
  | cons r rs ih =>
    simp only [List.map_cons, List.foldl_cons]
    rw [show min (now + a * 1000) (now + r.ttl * 1000) = now + min a r.ttl * 1000 by omega]
    exact ih (min a r.ttl)

theorem jsMathMin_expiry (now : Nat) (records : List DnsRecord) (h : records ≠ []) :
    jsMathMin (records.map fun r => now + r.ttl * 1000) = now + minTtl records * 1000 := by
  match records, h with
  | r :: rs, _ =>
    simp only [List.map_cons, jsMathMin, minTtl]
    exact foldl_min_affine now rs r.ttl

theorem sfArriveMany_attach (cs : List Nat) (s : SFState) (ws : List Nat)
    (hc : s.cached = none) (hp : s.pending = some ws) :
    sfArriveMany cs s = { s with pending := some (cs.reverse ++ ws) } := by
  induction cs generalizing s ws with
  | nil =>
    simp only [sfArriveMany, List.foldl_nil, List.reverse_nil, List.nil_append]
    cases s
    simp_all
  | cons c cs ih =>
    have h1 : sfArrive c s = { s with pending := some (c :: ws) } := by
      simp [sfArrive, hc, hp]
    show sfArriveMany cs (sfArrive c s) = _
    rw [h1, ih _ (c :: ws) (by simp [hc]) rfl]
    simp

/-! ### C1: single-flight coalescing -/

/-- C1: when N callers arrive for the same key while there is no unexpired
cache entry and no resolution in flight, the external primitive is invoked
exactly once; once the external call settles (success or failure) the pending
entry is removed, the invocation count is still one, and every caller is
delivered the one outcome obtained by classifying the settled value and
running it through the error translation. -/
theorem singleFlight_spec (cs : List Nat) (family : Nat) (hostname : String)
    (res : Except JsError (List RecordWithTtl)) (hcs : cs ≠ []) :
    (sfArriveMany cs sfInit).extCalls = 1 ∧
    (sfArriveMany cs sfInit).pending = some cs.reverse ∧
    (sfArriveMany cs sfInit).cached = none ∧
    (sfSettle family hostname res (sfArriveMany cs sfInit)).pending = none ∧
    (sfSettle family hostname res (sfArriveMany cs sfInit)).extCalls = 1 ∧
    (sfSettle family hostname res (sfArriveMany cs sfInit)).delivered
      = cs.reverse.map
          (fun c => (c, callerOutcome hostname (classifyExternal family hostname res))) := by
  match cs, hcs with
  | c :: cs, _ =>
    have h1 : sfArrive c sfInit
        = { cached := none, pending := some [c], extCalls := 1, delivered := [] } := by
      simp [sfArrive, sfInit]
    have h2 : sfArriveMany (c :: cs) sfInit
        = { cached := none, pending := some (cs.reverse ++ [c]), extCalls := 1,
            delivered := [] } := by
      show sfArriveMany cs (sfArrive c sfInit) = _
      rw [h1, sfArriveMany_attach cs _ [c] rfl rfl]
    rw [h2]
    refine ⟨rfl, by simp, rfl, ?_, ?_, ?_⟩
    · simp [sfSettle]
    · simp [sfSettle]
    · simp [sfSettle]

/-- Witness for C1: three callers arrive during a miss, the external call is
invoked once, and settling clears the pending entry. -/
theorem singleFlight_spec_witness :
    ([0, 1, 2] : List Nat) ≠ [] ∧
    (sfArriveMany [0, 1, 2] sfInit).extCalls = 1 ∧
    (sfSettle 4 "h" (.ok [⟨"1.2.3.4", 60⟩]) (sfArriveMany [0, 1, 2] sfInit)).pending = none := by
  have h := singleFlight_spec [0, 1, 2] 4 "h" (.ok [⟨"1.2.3.4", 60⟩]) (by decide)
  exact ⟨by decide, h.1, h.2.2.2.1⟩

/-! ### C7: address cache expiry model -/

/-- C7: `AddressCache.set` with an empty record list leaves the cache
unchanged; with a non-empty list it stores (overwriting any previous binding)
an entry whose expiry is the insertion time plus the minimum record ttl times
1000 ms and whose cursor is fresh; `AddressCache.get` only ever returns the
records of a stored entry that is non-empty and unexpired, and deletes the
entry, reporting absent, whenever it is empty or its expiry has passed. -/
theorem addressCache_spec (cache : AddressCache) (now : Nat) (key : String)
    (records : List DnsRecord) (entry : AddressCacheEntry) :
    AddressCache.set cache now key [] = cache ∧
    (records ≠ [] →
      assocFind key (AddressCache.set cache now key records)
        = some { records := records, rr := none, expiry := now + minTtl records * 1000 }) ∧
    ((AddressCache.get cache now key).1 = some records →
      records ≠ [] ∧ ∃ e : AddressCacheEntry, assocFind key cache = some e ∧
        e.records = records ∧ now < e.expiry) ∧
    (assocFind key cache = some entry → entry.records = [] ∨ entry.expiry ≤ now →
      AddressCache.get cache now key = (none, assocErase key cache)) := by
  refine ⟨by simp [AddressCache.set], fun h => ?_, fun h => ?_, fun he hcond => ?_⟩
  · have hlen : ¬ records.length = 0 := by simpa using h
    rw [AddressCache.set, if_neg hlen, assocFind_set_self, jsMathMin_expiry now records h]
  · match hfind : assocFind key cache with
    | none =>
      simp only [AddressCache.get, hfind] at h
      exact absurd h (by simp)
    | some e =>
      simp only [AddressCache.get, hfind] at h
      by_cases hdead : e.records.length = 0 ∨ e.expiry ≤ now
      · rw [if_pos hdead] at h; simp at h
      · rw [if_neg hdead] at h
        push_neg at hdead
        have hrec : e.records = records := by simpa using h
        refine ⟨by rw [← hrec]; simpa using hdead.1, e, rfl, hrec, by omega⟩
  · have hdead : entry.records.length = 0 ∨ entry.expiry ≤ now := by
      rcases hcond with h1 | h2
      · left; simp [h1]
      · right; exact h2
    simp only [AddressCache.get, he]
    rw [if_pos hdead]

/-- Witness for C7 at a concrete cache: storing two records yields an entry
expiring at the minimum ttl, an expired entry is deleted on read, and a live
entry is returned. -/
theorem addressCache_spec_witness :
    ([⟨"a", 30, 4⟩, ⟨"b", 60, 4⟩] : List DnsRecord) ≠ [] ∧
    assocFind "h_4" (AddressCache.set [] 5 "h_4" [⟨"a", 30, 4⟩, ⟨"b", 60, 4⟩])
      = some { records := [⟨"a", 30, 4⟩, ⟨"b", 60, 4⟩], rr := none, expiry := 5 + 30 * 1000 } := by
  refine ⟨by decide, ?_⟩
  have h := (addressCache_spec [] 5 "h_4" [⟨"a", 30, 4⟩, ⟨"b", 60, 4⟩]
    { records := [], rr := none, expiry := 0 }).2.1 (by decide)
  simpa using h

theorem addressCacheGet_none_find (c : AddressCache) (now : Nat) (key : String)
    (h : (AddressCache.get c now key).1 = none) :
    assocFind key (AddressCache.get c now key).2 = none := by
  match hfind : assocFind key c with
  | none =>
    simp only [AddressCache.get, hfind]
  | some e =>
    simp only [AddressCache.get, hfind] at h ⊢
    by_cases hdead : e.records.length = 0 ∨ e.expiry ≤ now
    · rw [if_pos hdead]
      exact assocFind_erase_self key c
    · rw [if_neg hdead] at h
      simp at h

theorem addressCacheGet_pair (c : AddressCache) (now : Nat) (key : String)
    (h : (AddressCache.get c now key).1 = none) :
    AddressCache.get c now key = (none, (AddressCache.get c now key).2) := by
  conv_lhs => rw [← Prod.mk.eta (p := AddressCache.get c now key)]
  rw [h]

theorem addressCacheGet_no_entry (c : AddressCache) (now : Nat) (key : String)
    (h : assocFind key c = none) : AddressCache.get c now key = (none, c) := by
  simp only [AddressCache.get, h]

/-! ### C5: empty successful resolution -/

/-- C5: on a cache miss, when the external call succeeds with zero records,
`resolve` raises the synthesized not-found error — syscall `getaddrinfo`,
errno absent — and the address cache is not populated for the key (and
`AddressCache.set` never stores an empty list for any key). -/
theorem zeroRecords_notFound (w : World) (hostname : String) (family : Nat) (all : Bool)
    (hmiss : (AddressCache.get w.addressCache w.now (mkKey hostname family)).1 = none)
    (hext : w.external hostname family = .ok []) :
    (resolve w hostname family all).1
      = .error (makeNotFoundError none (some "getaddrinfo") (some hostname)) ∧
    (makeNotFoundError none (some "getaddrinfo") (some hostname)).syscall
      = some "getaddrinfo" ∧
    (makeNotFoundError none (some "getaddrinfo") (some hostname)).errno = none ∧
    assocFind (mkKey hostname family) (resolve w hostname family all).2.addressCache
      = none ∧
    (∀ (c : AddressCache) (n : Nat) (k : String), AddressCache.set c n k [] = c) := by
  rcases hq : AddressCache.get w.addressCache w.now (mkKey hostname family) with ⟨r, cache2⟩
  have hr : r = none := by rw [hq] at hmiss; exact hmiss
  subst hr
  have hres : resolve w hostname family all
      = (.error (makeNotFoundError none (some "getaddrinfo") (some hostname)),
         { w with addressCache := cache2,
                  extLog := w.extLog ++ [(hostname, family)] }) := by
    simp [resolve, hq, hext, classifyExternal, catchTranslate, makeNotFoundError]
  rw [hres]
  refine ⟨rfl, rfl, rfl, ?_, fun c n k => by simp [AddressCache.set]⟩
  have h2 := addressCacheGet_none_find w.addressCache w.now (mkKey hostname family) hmiss
  rw [hq] at h2
  exact h2

/-- Witness for C5: a miss world whose resolver returns zero records yields
the not-found error and leaves the cache empty. -/
theorem zeroRecords_notFound_witness :
    (AddressCache.get missWorld.addressCache missWorld.now (mkKey "h" 4)).1 = none ∧
    missWorld.external "h" 4 = .ok [] ∧
    (resolve missWorld "h" 4 false).1
      = .error (makeNotFoundError none (some "getaddrinfo") (some "h")) := by
  refine ⟨by decide, by decide, ?_⟩
  exact (zeroRecords_notFound missWorld "h" 4 false (by decide) (by decide)).1

/-! ### C6: upstream error translation -/

/-- C6: on a cache miss, an external failure of the ENODATA / ENONAME class is
rewritten into the not-found shape — fixed ENOTFOUND code, the original code
as errno, the original syscall preserved — while every other external error
propagates to the caller unchanged, and in every failure case the address
cache is exactly what the initial (lazily-expiring) read left, untouched by
the failure. -/
theorem errorTranslation_spec (w : World) (hostname : String) (family : Nat) (all : Bool)
    (e : JsError)
    (hmiss : (AddressCache.get w.addressCache w.now (mkKey hostname family)).1 = none)
    (hext : w.external hostname family = .error e) :
    ((e.code = some "ENODATA" ∨ e.code = some "ENONAME") →
      (resolve w hostname family all).1
        = .error (makeNotFoundError e.code e.syscall (some hostname)) ∧
      (makeNotFoundError e.code e.syscall (some hostname)).code = some "ENOTFOUND" ∧
      (makeNotFoundError e.code e.syscall (some hostname)).errno = e.code ∧
      (makeNotFoundError e.code e.syscall (some hostname)).syscall = e.syscall) ∧
    (¬(e.code = some "ENODATA" ∨ e.code = some "ENONAME") →
      (resolve w hostname family all).1 = .error e) ∧
    (resolve w hostname family all).2.addressCache
      = (AddressCache.get w.addressCache w.now (mkKey hostname family)).2 ∧
    (assocFind (mkKey hostname family) w.addressCache = none →
      (resolve w hostname family all).2.addressCache = w.addressCache) := by
  rcases hq : AddressCache.get w.addressCache w.now (mkKey hostname family) with ⟨r, cache2⟩
  have hr : r = none := by rw [hq] at hmiss; exact hmiss
  subst hr
  have hres : resolve w hostname family all
      = (.error (catchTranslate hostname e),
         { w with addressCache := cache2,
                  extLog := w.extLog ++ [(hostname, family)] }) := by
    simp only [resolve, hq, hext, classifyExternal]
  rw [hres]
  refine ⟨fun hc => ⟨?_, rfl, rfl, rfl⟩, fun hc => ?_, rfl, fun hfind => ?_⟩
  · show Except.error (catchTranslate hostname e) = _
    rw [catchTranslate, if_pos hc]
  · show Except.error (catchTranslate hostname e) = _
    rw [catchTranslate, if_neg hc]
  · have h2 := addressCacheGet_no_entry w.addressCache w.now (mkKey hostname family) hfind
    rw [hq] at h2
    simpa using congrArg Prod.snd h2

/-- Witness for C6: an ENODATA failure from syscall queryA is rewritten to
ENOTFOUND carrying ENODATA as errno and queryA as syscall. -/
theorem errorTranslation_spec_witness :
    (AddressCache.get errWorld.addressCache errWorld.now (mkKey "h" 4)).1 = none ∧
    errWorld.external "h" 4 = .error enodataErr ∧
    (enodataErr.code = some "ENODATA" ∨ enodataErr.code = some "ENONAME") ∧
    (resolve errWorld "h" 4 false).1
      = .error (makeNotFoundError enodataErr.code enodataErr.syscall (some "h")) := by
  refine ⟨by decide, by decide, by decide, ?_⟩
  exact ((errorTranslation_spec errWorld "h" 4 false enodataErr (by decide) (by decide)).1
    (by decide)).1

/-! ### C3: dual-stack combination policy -/

/-- C3: `resolveBoth` concatenates IPv4 then IPv6 results when `all` is set;
otherwise it returns the whole IPv4 result set when non-empty and the IPv6
set when not; when both branches come back empty it raises the not-found
error for the hostname; a branch failing with the not-found code contributes
an empty list — in particular an IPv6 not-found is swallowed and the
non-empty IPv4 set is still returned; and any other branch error propagates
(the IPv4 one first). -/
theorem resolveBoth_combination (w : World) (hostname : String) (all : Bool) :
    (∀ v4 v6, all = true →
      (resolve w hostname 4 all).1 = .ok v4 →
      (resolve (resolve w hostname 4 all).2 hostname 6 all).1 = .ok v6 →
      v4 ++ v6 ≠ [] →
      resolveBoth w hostname all
        = (.ok (v4 ++ v6), (resolve (resolve w hostname 4 all).2 hostname 6 all).2)) ∧
    (∀ v4 v6, all = false →
      (resolve w hostname 4 all).1 = .ok v4 → v4 ≠ [] →
      (resolve (resolve w hostname 4 all).2 hostname 6 all).1 = .ok v6 →
      resolveBoth w hostname all
        = (.ok v4, (resolve (resolve w hostname 4 all).2 hostname 6 all).2)) ∧
    (∀ v6, all = false →
      (resolve w hostname 4 all).1 = .ok [] →
      (resolve (resolve w hostname 4 all).2 hostname 6 all).1 = .ok v6 → v6 ≠ [] →
      resolveBoth w hostname all
        = (.ok v6, (resolve (resolve w hostname 4 all).2 hostname 6 all).2)) ∧
    (wrapNotFound (resolve w hostname 4 all).1 = .ok [] →
      wrapNotFound (resolve (resolve w hostname 4 all).2 hostname 6 all).1 = .ok [] →
      resolveBoth w hostname all
        = (.error (makeNotFoundError none (some "getaddrinfo") (some hostname)),
           (resolve (resolve w hostname 4 all).2 hostname 6 all).2)) ∧
    (∀ e v6, (resolve w hostname 4 all).1 = .error e → e.code = some "ENOTFOUND" →
      (resolve (resolve w hostname 4 all).2 hostname 6 all).1 = .ok v6 → v6 ≠ [] →
      resolveBoth w hostname all
        = (.ok v6, (resolve (resolve w hostname 4 all).2 hostname 6 all).2)) ∧
    (∀ v4 e, (resolve w hostname 4 all).1 = .ok v4 → v4 ≠ [] →
      (resolve (resolve w hostname 4 all).2 hostname 6 all).1 = .error e →
      e.code = some "ENOTFOUND" →
      resolveBoth w hostname all
        = (.ok v4, (resolve (resolve w hostname 4 all).2 hostname 6 all).2)) ∧
    (∀ e, (resolve w hostname 4 all).1 = .error e → e.code ≠ some "ENOTFOUND" →
      resolveBoth w hostname all
        = (.error e, (resolve (resolve w hostname 4 all).2 hostname 6 all).2)) ∧
    (∀ v4 e, wrapNotFound (resolve w hostname 4 all).1 = .ok v4 →
      (resolve (resolve w hostname 4 all).2 hostname 6 all).1 = .error e →
      e.code ≠ some "ENOTFOUND" →
      resolveBoth w hostname all
        = (.error e, (resolve (resolve w hostname 4 all).2 hostname 6 all).2)) := by
  refine ⟨fun v4 v6 hall h4 h6 hne => ?_, fun v4 v6 hall h4 hne4 h6 => ?_,
    fun v6 hall h4 h6 hne6 => ?_, fun h4 h6 => ?_, fun e v6 h4 hcode h6 hne6 => ?_,
    fun v4 e h4 hne4 h6 hcode => ?_, fun e h4 hcode => ?_, fun v4 e h4 h6 hcode => ?_⟩
  · subst hall
    simp only [resolveBoth]
    rw [h4, h6]
    simp only [wrapNotFound, if_true]
    simp [hne]
    intro h0
    rw [h0] at hne
    simpa using hne
  · subst hall
    simp only [resolveBoth]
    rw [h4, h6]
    simp only [wrapNotFound]
    have hlen : 0 < v4.length := List.length_pos.mpr hne4
    simp [hlen]
    exact hne4
  · subst hall
    simp only [resolveBoth]
    rw [h4, h6]
    simp only [wrapNotFound]
    simp [hne6]
  · simp only [resolveBoth]
    rw [h4, h6]
    cases all <;> simp
  · simp only [resolveBoth]
    rw [h4, h6]
    simp only [wrapNotFound, hcode, if_pos rfl]
    cases all <;> simp [hne6]
  · simp only [resolveBoth]
    rw [h4, h6]
    simp only [wrapNotFound, hcode, if_pos rfl]
    have hlen : 0 < v4.length := List.length_pos.mpr hne4
    cases all <;> simp [hlen, hne4]
  · simp only [resolveBoth]
    rw [h4]
    simp only [wrapNotFound, if_neg hcode]
  · simp only [resolveBoth]
    rw [h4, h6]
    simp only [wrapNotFound, if_neg hcode]

/-- Witness for C3 at a concrete dual-record world: with `all` unset the
non-empty IPv4 set wins. -/
theorem resolveBoth_combination_witness :
    (resolve bothWorld "h" 4 false).1 = .ok [{ address := "1.2.3.4", family := 4 }] ∧
    ([{ address := "1.2.3.4", family := 4 }] : List LookupAddress) ≠ [] ∧
    (resolve (resolve bothWorld "h" 4 false).2 "h" 6 false).1
      = .ok [{ address := "::1", family := 6 }] ∧
    (resolveBoth bothWorld "h" false).1 = .ok [{ address := "1.2.3.4", family := 4 }] ∧
    (resolve v4onlyWorld "h" 4 false).1 = .ok [{ address := "1.2.3.4", family := 4 }] ∧
    (resolve (resolve v4onlyWorld "h" 4 false).2 "h" 6 false).1
      = .error (makeNotFoundError none (some "getaddrinfo") (some "h")) ∧
    (makeNotFoundError none (some "getaddrinfo") (some "h")).code = some "ENOTFOUND" ∧
    (resolveBoth v4onlyWorld "h" false).1 = .ok [{ address := "1.2.3.4", family := 4 }] := by
  refine ⟨by decide, by decide, by decide, ?_, by decide, by decide, by decide, ?_⟩
  · have h := (resolveBoth_combination bothWorld "h" false).2.1
      [{ address := "1.2.3.4", family := 4 }] [{ address := "::1", family := 6 }]
      rfl (by decide) (by decide) (by decide)
    rw [h]
  · have h := (resolveBoth_combination v4onlyWorld "h" false).2.2.2.2.2.1
      [{ address := "1.2.3.4", family := 4 }]
      (makeNotFoundError none (some "getaddrinfo") (some "h"))
      (by decide) (by decide) (by decide) (by decide)
    rw [h]

/-! ### C9: empty-hostname short circuit -/

/-- C9: for the empty hostname `lookupPromise` returns without touching the
network, the cache, or any other state: in all mode an empty list; in
single-result mode the null address tagged 6 exactly when the effective
(post-default) family is 6 and tagged 4 otherwise, in particular tagged 4
when neither the call nor the defaults set a family. -/
theorem emptyHostname_spec (w : World) (opts : LookupOptions) :
    (opts.all = true → lookupPromise w "" opts = (.ok (.list []), w)) ∧
    (opts.all = false →
      lookupPromise w "" opts
        = (.ok (.addr none
            (if (if jsFalsy opts.family then w.cacheDnsDefaults.defaultFamily else opts.family)
                = JsVal.num 6 then 6 else 4)), w)) ∧
    (opts.all = false → jsFalsy opts.family = true →
      jsFalsy w.cacheDnsDefaults.defaultFamily = true →
      lookupPromise w "" opts = (.ok (.addr none 4), w)) := by
  refine ⟨fun ha => ?_, fun ha => ?_, fun ha hf hd => ?_⟩
  · simp [lookupPromise, ha]
  · simp [lookupPromise, ha]
  · have hne : ¬ ((if jsFalsy opts.family then w.cacheDnsDefaults.defaultFamily else opts.family)
        = JsVal.num 6) := by
      rw [if_pos hf]
      match hv : w.cacheDnsDefaults.defaultFamily with
      | .undef => simp
      | .num n =>
        rw [hv] at hd
        simp only [jsFalsy] at hd
        simp [show n = 0 by simpa using hd]
      | .pair a b => simp [jsFalsy] at hd; rw [hv] at hd; simp [jsFalsy] at hd
    simp [lookupPromise, ha, hne]

/-- Witness for C9: a lookup of the empty hostname with no options returns
the null address tagged IPv4 and leaves the world untouched. -/
theorem emptyHostname_spec_witness :
    ({} : LookupOptions).all = false ∧
    lookupPromise wC2 "" {} = (.ok (.addr none 4), wC2) := by
  refine ⟨by decide, ?_⟩
  exact (emptyHostname_spec wC2 {}).2.2 rfl (by decide) (by decide)

/-! ### C2: ADDRCONFIG supported-family restriction (code bug) -/

/-- C2 fails on the code: with exactly one non-internal interface family,
`getSupportedFamilies` evaluates `supported.entries().next().value`, and for
a JavaScript `Set` the entries iterator yields `[value, value]` pairs, so the
function returns (and caches) the array `[4, 4]` rather than the family 4.
Consequently a lookup explicitly requesting the matching family 4 fails with
the not-found error (the strict comparison `options.family !==
supportedFamilies` compares a number against an array), and a lookup with no
explicit family adopts the array and falls through to the invalid-family
branch instead of resolving IPv4; no resolution is attempted in either
case. -/
theorem addrconfig_entries_bug :
    (getSupportedFamilies wC2).1 = JsVal.pair 4 4 ∧
    (lookupPromise wC2 "example.com"
        { family := .num 4, hints := some dnsADDRCONFIG, all := false }).1
      = .error (makeNotFoundError none (some "getaddrinfo") (some "example.com")) ∧
    (lookupPromise wC2 "example.com"
        { family := .num 4, hints := some dnsADDRCONFIG, all := false }).2.extLog = [] ∧
    (lookupPromise wC2 "example.com"
        { family := .undef, hints := some dnsADDRCONFIG, all := false }).1
      = .error { message := "invalid family number", code := none, errno := none,
                 syscall := none, hostname := none } ∧
    (lookupPromise wC2 "example.com"
        { family := .undef, hints := some dnsADDRCONFIG, all := false }).2.extLog = [] := by
  refine ⟨by decide, by decide, by decide, by decide, by decide⟩

theorem roundRobin_fst_isSome {α : Type} (arr : List α) (rr : Option Int) (h : arr ≠ []) :
    ∃ r, (roundRobin arr rr).1 = some r := by
  have hl0 : ¬ arr.length = 0 := by simpa using h
  have hpos : 0 < arr.length := Nat.pos_of_ne_zero hl0
  have h0 : arr[0]? = some arr[0] := List.getElem?_eq_getElem hpos
  match rr with
  | none => exact ⟨arr[0], by simp only [roundRobin, if_neg hl0]; exact h0⟩
  | some r =>
    by_cases h1 : arr.length = 1
    · exact ⟨arr[0], by simp only [roundRobin, if_neg hl0, if_pos h1]; exact h0⟩
    · by_cases hc : ((arr.length : Int) - 1 ≤ r ∨ r < 0)
      · exact ⟨arr[0], by simp only [roundRobin, if_neg hl0, if_neg h1, if_pos hc]; exact h0⟩
      · have hlt : (r + 1).toNat < arr.length := by omega
        exact ⟨arr[(r + 1).toNat],
          by simp only [roundRobin, if_neg hl0, if_neg h1, if_neg hc]
             exact List.getElem?_eq_getElem hlt⟩

theorem resolve_hit_single (w : World) (hostname : String) (family : Nat)
    (e : AddressCacheEntry)
    (hfind : assocFind (mkKey hostname family) w.addressCache = some e)
    (hne : e.records ≠ []) (hex : w.now < e.expiry) :
    ∃ r, (roundRobin e.records e.rr).1 = some r ∧
      resolve w hostname family false
        = (.ok [{ address := r.address, family := r.family }],
           { w with addressCache := assocSet (mkKey hostname family) ({ e with rr := (roundRobin e.records e.rr).2 }) w.addressCache }) := by
  have hdead : ¬ (e.records.length = 0 ∨ e.expiry ≤ w.now) := by
    push_neg
    exact ⟨by simpa using hne, by omega⟩
  have hget : AddressCache.get w.addressCache w.now (mkKey hostname family)
      = (some e.records, w.addressCache) := by
    simp only [AddressCache.get, hfind, if_neg hdead]
  obtain ⟨r, hr⟩ := roundRobin_fst_isSome e.records e.rr hne
  refine ⟨r, hr, ?_⟩
  simp only [resolve, hget, selectRecords, hfind, hr, Bool.false_eq_true, if_false]

theorem mkKey_4_ne_6 (hostname : String) : mkKey hostname 4 ≠ mkKey hostname 6 := by
  intro heq
  have hd := congrArg String.data heq
  simp only [mkKey, String.data_append] at hd
  have h4 : (toString (4 : Nat)).data = ['4'] := by decide
  have h6 : (toString (6 : Nat)).data = ['6'] := by decide
  rw [h4, h6] at hd
  have h2 := List.append_cancel_left hd
  simp at h2

/-! ### C10: dual-stack lookups advance both cursors -/

/-- C10: a dual-stack single-result lookup with both family entries cached
and live returns the single record picked from the IPv4 list, yet writes the
stepped round-robin cursor back to both the IPv4 and the IPv6 entry; in
particular an in-range IPv6 cursor strictly advances even though the IPv6
selection is discarded. -/
theorem dualStack_cursor_frame (w : World) (hostname : String)
    (e4 e6 : AddressCacheEntry)
    (hf4 : assocFind (mkKey hostname 4) w.addressCache = some e4)
    (hf6 : assocFind (mkKey hostname 6) w.addressCache = some e6)
    (hne4 : e4.records ≠ []) (hne6 : e6.records ≠ [])
    (hex4 : w.now < e4.expiry) (hex6 : w.now < e6.expiry) :
    (∃ r, (roundRobin e4.records e4.rr).1 = some r ∧
      (resolveBoth w hostname false).1 = .ok [{ address := r.address, family := r.family }]) ∧
    assocFind (mkKey hostname 4) (resolveBoth w hostname false).2.addressCache
      = some { e4 with rr := (roundRobin e4.records e4.rr).2 } ∧
    assocFind (mkKey hostname 6) (resolveBoth w hostname false).2.addressCache
      = some { e6 with rr := (roundRobin e6.records e6.rr).2 } ∧
    (∀ k : Int, e6.rr = some k → 0 ≤ k → k < (e6.records.length : Int) - 1 →
      2 ≤ e6.records.length →
      (roundRobin e6.records e6.rr).2 = some (k + 1) ∧ some (k + 1) ≠ e6.rr) := by
  obtain ⟨r4, hr4, hres4⟩ := resolve_hit_single w hostname 4 e4 hf4 hne4 hex4
  set w1 : World := { w with addressCache := assocSet (mkKey hostname 4) ({ e4 with rr := (roundRobin e4.records e4.rr).2 }) w.addressCache } with hw1
  have hf6' : assocFind (mkKey hostname 6) w1.addressCache = some e6 := by
    rw [hw1]
    show assocFind (mkKey hostname 6) (assocSet (mkKey hostname 4) _ w.addressCache) = some e6
    rw [assocFind_set_other _ _ _ _ (Ne.symm (mkKey_4_ne_6 hostname))]
    exact hf6
  obtain ⟨r6, hr6, hres6⟩ := resolve_hit_single w1 hostname 6 e6 hf6' hne6 hex6
  have hboth : resolveBoth w hostname false
      = (.ok [{ address := r4.address, family := r4.family }],
         { w1 with addressCache := assocSet (mkKey hostname 6) ({ e6 with rr := (roundRobin e6.records e6.rr).2 }) w1.addressCache }) := by
    simp only [resolveBoth, hres4, hres6, wrapNotFound]
    simp
  rw [hboth]
  refine ⟨⟨r4, hr4, rfl⟩, ?_, ?_, fun k hk h0 hlt h2 => ?_⟩
  · show assocFind (mkKey hostname 4)
        (assocSet (mkKey hostname 6) _ w1.addressCache) = _
    rw [assocFind_set_other _ _ _ _ (mkKey_4_ne_6 hostname), hw1]
    exact assocFind_set_self _ _ _
  · exact assocFind_set_self _ _ _
  · have hl0 : ¬ e6.records.length = 0 := by omega
    have hl1 : ¬ e6.records.length = 1 := by omega
    have hc : ¬ ((e6.records.length : Int) - 1 ≤ k ∨ k < 0) := by omega
    rw [hk]
    constructor
    · simp only [roundRobin, if_neg hl0, if_neg hl1, if_neg hc]
    · simp only [ne_eq, Option.some.injEq]
      omega

/-- Witness for C10: both cached cursors stand at 0; the lookup returns the
second IPv4 record and the IPv6 cursor has moved to 1. -/
theorem dualStack_cursor_frame_witness :
    assocFind (mkKey "h" 4) w10.addressCache = some entry4 ∧
    assocFind (mkKey "h" 6) w10.addressCache = some entry6 ∧
    entry4.records ≠ [] ∧ entry6.records ≠ [] ∧
    w10.now < entry4.expiry ∧ w10.now < entry6.expiry ∧
    assocFind (mkKey "h" 6) (resolveBoth w10 "h" false).2.addressCache
      = some { entry6 with rr := (roundRobin entry6.records entry6.rr).2 } ∧
    (roundRobin entry6.records entry6.rr).2 = some 1 := by
  refine ⟨by decide, by decide, by decide, by decide, by decide, by decide, ?_, by decide⟩
  exact (dualStack_cursor_frame w10 "h" entry4 entry6 (by decide) (by decide) (by decide)
    (by decide) (by decide) (by decide)).2.2.1

/-! ### C4: round-robin rotation -/

/-- C4: repeated single-result selections against one list object with an
attached round-robin cursor return the elements at indices 0, 1, ..., n-1,
0, 1, ... in that order (the k-th selection, 0-based, yields the element at
index k mod n); selection on an empty list returns no element; and four
sequential single-result lookups against one cached 3-element list yield the
elements at indices [0, 1, 2, 0]. -/
theorem roundRobin_rotation_spec {α : Type} (arr : List α) (k : Nat) (rr : Option Int) :
    (arr ≠ [] → rrNth arr k = arr[k % arr.length]?) ∧
    roundRobin ([] : List α) rr = (none, rr) ∧
    ((resolve rrWorld "h" 4 false).1 = .ok [{ address := "a", family := 4 }] ∧
      (resolve rrWorld1 "h" 4 false).1 = .ok [{ address := "b", family := 4 }] ∧
      (resolve rrWorld2 "h" 4 false).1 = .ok [{ address := "c", family := 4 }] ∧
      (resolve rrWorld3 "h" 4 false).1 = .ok [{ address := "a", family := 4 }]) := by
  refine ⟨fun h => roundRobin_rotation arr k h, by simp [roundRobin], ?_, ?_, ?_, ?_⟩
  · decide
  · decide
  · decide
  · decide

/-- Witness for C4 at a concrete 3-element list: the fifth selection (index 4)
wraps around to the element at index 1. -/
theorem roundRobin_rotation_spec_witness :
    (["a", "b", "c"] : List String) ≠ [] ∧ rrNth (["a", "b", "c"] : List String) 4 = some "b" := by
  refine ⟨by decide, ?_⟩
  have h := (roundRobin_rotation_spec (["a", "b", "c"] : List String) 4 none).1 (by decide)
  simpa using h

/-! ### C8: address-family mapping -/

/-- C8: `mapAddresses` passes IPv6 entries through unchanged and in place;
when the `dns.ALL` hint bit is not set, each IPv4 entry is replaced by exactly
one entry holding its IPv4-mapped-IPv6 form tagged family 6; when the bit is
set, the original IPv4 entry is kept with its mapped form appended
immediately after it. -/
theorem mapAddresses_mapping (results : List LookupAddress) (hints : Option Nat) :
    mapAddresses results hints
    = results.flatMap (fun result =>
        if result.family = 6 then [result]
        else if hintsTruthy hints && (hints.getD 0 &&& dnsALL != 0) then
          [result, { address := ipv4MappedForm result.address, family := 6 }]
        else [{ address := ipv4MappedForm result.address, family := 6 }]) := by
  simpa [mapAddresses] using mapAddresses_foldl_eq hints results []

end CacheDns
